import Mathlib

/-!
Verification of the device-registry module of the droidcam-obs-plugin
repository (src/command.c): the bridge-device registry `AdbMgr` (Reload
parsing of `adb devices` output, the `NextDevice` iterator, lazy model
resolution via `GetModel`) and the multiplex registry `USBMux` (Reload,
NextDevice, Connect on the POSIX build).

C strings and capture buffers are modelled as `List Char` holding the byte
contents up to the first NUL; fixed `char[N]` fields become lists of length
at most N-1.  The external backend (process spawning, the adb binary, the
usbmuxd daemon) is modelled by its observable results, passed to each
operation as explicit arguments: a `Bool`/`Option` for command success and
captured text, an `Int` for the daemon's device-list result, and a function
`Int → Int → Int` for the daemon's connect call.
-/

namespace DroidCam

/-- struct AdbDevice (declared in the header command.h, used throughout
src/command.c): fixed-capacity `serial`, `state` and `model` byte buffers,
modelled as their contents up to the first NUL. -/
structure AdbDevice where
  serial : List Char
  state : List Char
  model : List Char
deriving DecidableEq, Repr

/-- Modelled from the spec: class AdbMgr (declared in the missing header
command.h) owns a fixed-capacity ordered array of nullable device slots plus
an iteration cursor.  The length of `deviceList` plays the role of the
DEVICES_LIMIT constant, whose numeric value the available sources do not
give; all theorems are parametric in it. -/
structure AdbMgr where
  deviceList : List (Option AdbDevice)
  iter : Nat
deriving DecidableEq, Repr

/-- Modelled from the spec: a freshly constructed registry (AdbMgr::AdbMgr,
src/command.c lines 129-136) nulls every one of its DEVICES_LIMIT slots; the
iteration cursor starts at 0. -/
def AdbMgr.new (limit : Nat) : AdbMgr :=
  { deviceList := List.replicate limit none, iter := 0 }

/-- The NUL byte terminating C strings. -/
def nulChar : Char := Char.ofNat 0

/-- strtok_r(buf, "\n", &n) tokenization used by Reload (src/command.c lines
164 and 202): the maximal nonempty runs of characters between newline
delimiters, in order (strtok never yields an empty token). -/
def tokenize : List Char → List (List Char)
  | [] => []
  | c :: rest =>
    if c = '\n' then tokenize rest
    else (c :: rest.takeWhile (fun x => decide (x ≠ '\n'))) ::
      tokenize (rest.dropWhile (fun x => decide (x ≠ '\n')))
termination_by l => l.length
decreasing_by
  all_goals simp_wf
  all_goals first
    | omega
    | exact Nat.lt_succ_of_le (List.Sublist.length_le (List.dropWhile_sublist _))

/-- strstr(l, pat) != NULL: whether `pat` occurs contiguously in `l`. -/
def containsSeq (pat : List Char) : List Char → Bool
  | [] => pat.isEmpty
  | c :: cs => pat.isPrefixOf (c :: cs) || containsSeq pat cs

/-- strchr(p, c): index of the first occurrence of a character, if any. -/
def firstIdx (t : Char) : List Char → Option Nat
  | [] => none
  | c :: cs => if c = t then some 0 else (firstIdx t cs).map (· + 1)

/-- The whitespace skipped between the serial and state fields
(src/command.c line 187); the additional `\r`/NUL guards of that loop are
redundant since neither is a space or a tab. -/
def wsChar (c : Char) : Bool := c == ' ' || c == '\t'

/-- Result of Reload's per-line parse: skip the line (`continue`), abort
parsing (`break`), or a parsed serial/state pair. -/
inductive LineResult where
  | skip
  | stop
  | ok (serial state : List Char)
deriving DecidableEq, Repr

/-- The header marker recognized by Reload (src/command.c line 167). -/
def headerMark : List Char := "List of".toList

/-- The serial/state extraction of AdbMgr::Reload once the separator index
`i` within line `p` is known (src/command.c lines 180-193): an empty serial
skips the line, both fields are truncated to their capacity minus one, the
state starts after the whitespace run following the separator and runs to
the end of the line, and an empty state skips the line. -/
def parseFields (serialCap stateCap i : Nat) (p : List Char) : LineResult :=
  if i = 0 then .skip
  else
    let serial := (p.take i).take (serialCap - 1)
    let rest := (p.drop (i + 1)).dropWhile wsChar
    if rest.length = 0 then .skip
    else .ok serial (rest.take (stateCap - 1))

/-- One iteration of Reload's line loop (src/command.c lines 166-193): lines
containing the header marker are skipped, the separator is the first space
of the line, else the first tab, and a line with neither terminates parsing
entirely. -/
def parseLine (serialCap stateCap : Nat) (p : List Char) : LineResult :=
  if containsSeq headerMark p then .skip
  else
    match firstIdx ' ' p with
    | some i => parseFields serialCap stateCap i p
    | none =>
      match firstIdx '\t' p with
      | some i => parseFields serialCap stateCap i p
      | none => .stop

/-- The slot-writing loop of Reload (src/command.c lines 165-202): each
well-parsed line is written into the next slot (a write fully replaces
serial and state and clears model, whether or not the slot already held a
record); parsing stops when the slot index reaches DEVICES_LIMIT
(= `dl.length`) or on a line with no separator. -/
def reloadParse (serialCap stateCap : Nat) :
    List (List Char) → List (Option AdbDevice) → Nat → List (Option AdbDevice)
  | [], dl, _ => dl
  | p :: rest, dl, i =>
    match parseLine serialCap stateCap p with
    | .stop => dl
    | .skip => reloadParse serialCap stateCap rest dl i
    | .ok s st =>
      let dl' := dl.set i (some { serial := s, state := st, model := [] })
      if i + 1 = dl.length then dl' else reloadParse serialCap stateCap rest dl' (i + 1)

/-- AdbMgr::Reload (src/command.c lines 145-205).  The two backend commands
are modelled by their observable results: `reconnectOk` is the success of
"adb reconnect offline", and `devicesRes` is `some` captured text when
"adb devices" succeeds, `none` when it fails.  The capture buffer is a C
string, so parsing sees its contents up to the first NUL. -/
def AdbMgr.Reload (serialCap stateCap : Nat) (reconnectOk : Bool)
    (devicesRes : Option (List Char)) (m : AdbMgr) : Bool × AdbMgr :=
  if !reconnectOk then (false, m)
  else
    match devicesRes with
    | none => (false, m)
    | some buf =>
      let lines := tokenize (buf.takeWhile (fun c => decide (c ≠ nulChar)))
      (true, { m with deviceList := reloadParse serialCap stateCap lines m.deviceList 0 })

/-- The character class kept by GetModel (src/command.c line 215). -/
def modelCharOk (c : Char) : Bool := c.isAlphanum || c == ' ' || c == '-' || c == '_'

/-- GetModel (src/command.c lines 207-219): on success of the
"shell getprop ro.product.model" command (`res = some` captured text) the
longest prefix of the text made of alphanumerics, spaces, hyphens and
underscores — at most sizeof(model)-2 bytes — is copied into the model
field (previously empty, so fully determined); on failure (`res = none`)
the device is left unchanged. -/
def GetModel (modelCap : Nat) (res : Option (List Char)) (dev : AdbDevice) : AdbDevice :=
  match res with
  | none => dev
  | some buf => { dev with model := (buf.takeWhile modelCharOk).take (modelCap - 2) }

/-- The "offline" state token compared by NextDevice (src/command.c lines
222 and 227).  The memcmp length there is sizeof(const char *) - 1 = 7
bytes on an LP64 build, which is exactly the length of "offline", so the
comparison is an exact prefix match of the state buffer against it. -/
def offlineTok : List Char := "offline".toList

/-- The cursor normalization at the top of AdbMgr::NextDevice
(src/command.c line 224): a cursor at or past DEVICES_LIMIT restarts at 0. -/
def normIter (m : AdbMgr) : Nat :=
  if m.deviceList.length ≤ m.iter then 0 else m.iter

/-- AdbMgr::NextDevice (src/command.c lines 221-241), instrumented: besides
the updated registry it returns the yielded device (null for an empty
slot), the value stored through the is_offline out-parameter (`none` when
the slot was empty and the out-parameter is left untouched), and the slot
index for which GetModel was invoked, if it was.  `res` is the observable
result of the model command, should it be issued.  The cursor advances and
is_offline is written only on a non-null return; an online device with an
empty model triggers GetModel, which mutates the stored record in place. -/
def AdbMgr.NextDevice (modelCap : Nat) (res : Option (List Char)) (m : AdbMgr) :
    AdbMgr × Option AdbDevice × Option Nat × Option Nat :=
  let it := normIter m
  match m.deviceList.getD it none with
  | none => ({ m with iter := it }, none, none, none)
  | some dev =>
    if offlineTok.isPrefixOf dev.state then
      ({ m with iter := it + 1 }, some dev, some 1, none)
    else if dev.model = [] then
      let dev' := GetModel modelCap res dev
      ({ m with iter := it + 1, deviceList := m.deviceList.set it (some dev') },
        some dev', some 0, some it)
    else
      ({ m with iter := it + 1 }, some dev, some 0, none)

/-- `n` successive NextDevice calls against a fixed environment response for
every model query, yielding the instrumented per-call results in call
order. -/
def runNexts (modelCap : Nat) (res : Option (List Char)) :
    Nat → AdbMgr → AdbMgr × List (Option AdbDevice × Option Nat × Option Nat)
  | 0, m => (m, [])
  | n + 1, m =>
    let s := AdbMgr.NextDevice modelCap res m
    let r := runNexts modelCap res n s.1
    (r.1, s.2 :: r.2)

/-- The serial of each yielded device of a run (`none` for null returns);
serials identify devices across calls since NextDevice never rewrites
them. -/
def resultsDev (rs : List (Option AdbDevice × Option Nat × Option Nat)) :
    List (Option (List Char)) :=
  rs.map (fun r => r.1.map AdbDevice.serial)

/-- Modelled from the spec: the invalid connection-handle sentinel
INVALID_SOCKET from the missing header net.h (the failure sentinel of the
non-Windows build); its concrete value is irrelevant to the claims. -/
def INVALID_SOCKET : Int := -1

/-- Modelled from the spec: class USBMux (declared in the missing header
command.h) holds the daemon-reported device count and an iteration cursor;
the daemon-allocated device-info array itself stays behind the oracle
arguments of Connect. -/
structure USBMux where
  deviceCount : Int
  iter : Int
deriving DecidableEq, Repr

/-- USBMux::Reload on the plain POSIX build (src/command.c lines 290-311):
`listRes` is the return value of usbmuxd_get_device_list; a negative value
stores a zero count and returns 0, otherwise the count is stored and 1 is
returned. -/
def USBMux.Reload (listRes : Int) (m : USBMux) : Int × USBMux :=
  if listRes < 0 then (0, { m with deviceCount := 0 })
  else (1, { m with deviceCount := listRes })

/-- USBMux::NextDevice (src/command.c lines 313-316): yields the index of
the daemon record returned (modelling the pointer &deviceList[iter]) and
advances, or null once the cursor reaches the stored count. -/
def USBMux.NextDevice (m : USBMux) : USBMux × Option Int :=
  if m.deviceCount ≤ m.iter then (m, none)
  else ({ m with iter := m.iter + 1 }, some m.iter)

/-- USBMux::Connect on the POSIX build (src/command.c lines 318-343),
instrumented: `connectRes` maps the device index and port to the return
value of usbmuxd_connect on deviceList[index].handle; the second component
is the index the daemon call was made with (`none` when it was never
made).  A non-positive daemon result yields INVALID_SOCKET, a positive one
is returned unchanged. -/
def USBMux.Connect (connectRes : Int → Int → Int) (m : USBMux) (device port : Int) :
    Int × Option Int :=
  if device < m.deviceCount then
    let rc := connectRes device port
    if rc ≤ 0 then (INVALID_SOCKET, some device) else (rc, some device)
  else (INVALID_SOCKET, none)

/-- Modelled from the spec's words for model resolution ("result text is
filtered to a safe character subset (alphanumeric, space, hyphen,
underscore) up to capacity, discarding any other characters"): keep every
safe character of the text, in order, truncated to the field capacity.
Stated for comparison against the source-derived `GetModel`. -/
def specModelFilter (modelCap : Nat) (buf : List Char) : List Char :=
  (buf.filter modelCharOk).take modelCap

/-- A character that may appear inside a serial or state token of a
well-formed device line: not a separator, not a line break, not NUL. -/
def tokenChar (c : Char) : Bool :=
  !(c == ' ' || c == '\t' || c == '\n' || c == nulChar)

/-- A well-formed device line, given as (serial, separator, state): nonempty
separator-free tokens within field capacity, one space or tab separator,
and not itself a header line. -/
abbrev WfEntry (serialCap stateCap : Nat) (e : List Char × Char × List Char) : Prop :=
  e.1 ≠ [] ∧ (∀ c ∈ e.1, tokenChar c = true) ∧ e.1.length ≤ serialCap - 1 ∧
  (e.2.1 = ' ' ∨ e.2.1 = '\t') ∧
  e.2.2 ≠ [] ∧ (∀ c ∈ e.2.2, tokenChar c = true) ∧ e.2.2.length ≤ stateCap - 1 ∧
  containsSeq headerMark (e.1 ++ e.2.1 :: e.2.2) = false

/-- The text of a well-formed device line. -/
def mkLine (e : List Char × Char × List Char) : List Char :=
  e.1 ++ e.2.1 :: e.2.2

/-- A well-formed header line: contains the header marker and no line break
or NUL. -/
abbrev WfHeader (h : List Char) : Prop :=
  containsSeq headerMark h = true ∧ '\n' ∉ h ∧ nulChar ∉ h

/-- A line with neither a space nor a tab (and no line break or NUL), as in
the malformed-line claim. -/
abbrev BadLine (l : List Char) : Prop :=
  l ≠ [] ∧ ∀ c ∈ l, c ≠ ' ' ∧ c ≠ '\t' ∧ c ≠ '\n' ∧ c ≠ nulChar

/-- The backend "devices" output text for a list of lines: the lines joined
by single newlines. -/
def joinLines : List (List Char) → List Char
  | [] => []
  | [l] => l
  | l :: ls => l ++ '\n' :: joinLines ls

/-- Sequential slot writes starting at index `i`, as Reload performs them. -/
def writeSlots (dl : List (Option AdbDevice)) (i : Nat) : List AdbDevice → List (Option AdbDevice)
  | [] => dl
  | d :: ds => writeSlots (dl.set i (some d)) (i + 1) ds

/-- Overwriting the front of a slot list with populated records. -/
def overwrite : List (Option AdbDevice) → List AdbDevice → List (Option AdbDevice)
  | dl, [] => dl
  | [], _ :: _ => []
  | _ :: dl, d :: ds => some d :: overwrite dl ds

/-- The device record a well-formed line parses to. -/
def entryDev (e : List Char × Char × List Char) : AdbDevice :=
  { serial := e.1, state := e.2.2, model := [] }

/-- A default device record, used only as the default of `List.getD`. -/
def defaultDev : AdbDevice :=
  { serial := [], state := [], model := [] }

/-! ## Theorems -/

/-! Helper lemmas on lists, shared by several claims. -/

theorem safe_pre_takeWhile {α : Type} (p : α → Bool) :
    ∀ (pre l : List α), pre <+: l → (∀ c ∈ pre, p c = true) → pre <+: l.takeWhile p
  | [], _, _, _ => List.nil_prefix
  | c :: cs, l, hpre, hsafe => by
    rcases hpre with ⟨t, ht⟩
    cases l with
    | nil => exact absurd ht (by simp)
    | cons b bs =>
      have hcb : c = b := by injection ht
      have hcs : cs ++ t = bs := by injection ht
      subst hcb
      rw [List.takeWhile_cons_of_pos (hsafe c (List.mem_cons_self c cs))]
      rcases safe_pre_takeWhile p cs bs ⟨t, hcs⟩
          (fun x hx => hsafe x (List.mem_cons_of_mem c hx)) with ⟨u, hu⟩
      exact ⟨u, by rw [List.cons_append, hu]⟩

theorem append_pre_take {α : Type} (pre t : List α) (n : Nat) (h : pre.length ≤ n) :
    pre <+: (pre ++ t).take n := by
  rw [List.take_append_eq_append_take, List.take_of_length_le h]
  exact ⟨t.take (n - pre.length), rfl⟩

theorem takeWhile_append_of_all {α : Type} (p : α → Bool) :
    ∀ (l : List α) (x : α) (s : List α), (∀ c ∈ l, p c = true) → p x = false →
      (l ++ x :: s).takeWhile p = l
  | [], x, s, _, hx => by
    simp only [List.nil_append]
    rw [List.takeWhile_cons_of_neg (by simp [hx])]
  | c :: cs, x, s, h, hx => by
    rw [List.cons_append, List.takeWhile_cons_of_pos (h c (List.mem_cons_self c cs)),
      takeWhile_append_of_all p cs x s (fun a ha => h a (List.mem_cons_of_mem c ha)) hx]

theorem dropWhile_append_of_all {α : Type} (p : α → Bool) :
    ∀ (l : List α) (x : α) (s : List α), (∀ c ∈ l, p c = true) → p x = false →
      (l ++ x :: s).dropWhile p = x :: s
  | [], x, s, _, hx => by
    simp only [List.nil_append]
    rw [List.dropWhile_cons_of_neg (by simp [hx])]
  | c :: cs, x, s, h, hx => by
    rw [List.cons_append, List.dropWhile_cons_of_pos (h c (List.mem_cons_self c cs)),
      dropWhile_append_of_all p cs x s (fun a ha => h a (List.mem_cons_of_mem c ha)) hx]

theorem tokenize_nil : tokenize [] = [] := by
  simp [tokenize]

theorem tokenize_cons_newline (s : List Char) : tokenize ('\n' :: s) = tokenize s := by
  rw [tokenize]
  simp

theorem tokenize_single (l : List Char) (h1 : l ≠ []) (h2 : '\n' ∉ l) :
    tokenize l = [l] := by
  cases l with
  | nil => exact absurd rfl h1
  | cons c cs =>
    have hc : ¬ c = '\n' := fun h => h2 (by rw [h]; exact List.mem_cons_self '\n' cs)
    have hall : ∀ x ∈ cs, (fun x => decide (x ≠ '\n')) x = true := by
      intro x hx
      simp only [decide_eq_true_eq]
      exact fun h => h2 (h ▸ List.mem_cons_of_mem c hx)
    rw [tokenize, if_neg hc, List.takeWhile_eq_self_iff.mpr hall,
      List.dropWhile_eq_nil_iff.mpr hall, tokenize_nil]

theorem tokenize_append_newline (l s : List Char) (h1 : l ≠ []) (h2 : '\n' ∉ l) :
    tokenize (l ++ '\n' :: s) = l :: tokenize s := by
  cases l with
  | nil => exact absurd rfl h1
  | cons c cs =>
    have hc : ¬ c = '\n' := fun h => h2 (by rw [h]; exact List.mem_cons_self '\n' cs)
    have hall : ∀ x ∈ cs, (fun x => decide (x ≠ '\n')) x = true := by
      intro x hx
      simp only [decide_eq_true_eq]
      exact fun h => h2 (h ▸ List.mem_cons_of_mem c hx)
    rw [List.cons_append, tokenize, if_neg hc,
      takeWhile_append_of_all _ cs '\n' s hall (by simp),
      dropWhile_append_of_all _ cs '\n' s hall (by simp), tokenize_cons_newline]

theorem joinLines_cons (l : List Char) (ls : List (List Char)) (h : ls ≠ []) :
    joinLines (l :: ls) = l ++ '\n' :: joinLines ls := by
  cases ls with
  | nil => exact absurd rfl h
  | cons a as => rfl

theorem tokenize_joinLines :
    ∀ ls : List (List Char), (∀ l ∈ ls, l ≠ [] ∧ '\n' ∉ l) →
      tokenize (joinLines ls) = ls
  | [], _ => by simp [joinLines, tokenize_nil]
  | [l], h => by
    simp only [joinLines]
    exact tokenize_single l (h l (by simp)).1 (h l (by simp)).2
  | l :: l' :: ls, h => by
    rw [joinLines_cons l (l' :: ls) (by simp),
      tokenize_append_newline l _ (h l (by simp)).1 (h l (by simp)).2,
      tokenize_joinLines (l' :: ls) (fun x hx => h x (List.mem_cons_of_mem l hx))]

theorem mem_joinLines :
    ∀ (ls : List (List Char)) (c : Char), c ∈ joinLines ls →
      (∃ l ∈ ls, c ∈ l) ∨ c = '\n'
  | [], c, h => absurd h (List.not_mem_nil c)
  | [l], _, h => Or.inl ⟨l, by simp, h⟩
  | l :: l' :: ls, c, h => by
    rw [joinLines_cons l (l' :: ls) (by simp)] at h
    rcases List.mem_append.mp h with h | h
    · exact Or.inl ⟨l, by simp, h⟩
    · rcases List.mem_cons.mp h with h | h
      · exact Or.inr h
      · rcases mem_joinLines (l' :: ls) c h with ⟨x, hx, hcx⟩ | h
        · exact Or.inl ⟨x, List.mem_cons_of_mem l hx, hcx⟩
        · exact Or.inr h

theorem firstIdx_none_of_all (t : Char) :
    ∀ l : List Char, (∀ c ∈ l, c ≠ t) → firstIdx t l = none
  | [], _ => rfl
  | c :: cs, h => by
    simp only [firstIdx]
    rw [if_neg (h c (List.mem_cons_self c cs)),
      firstIdx_none_of_all t cs (fun x hx => h x (List.mem_cons_of_mem c hx))]
    rfl

theorem firstIdx_append (t : Char) :
    ∀ (l s : List Char), (∀ c ∈ l, c ≠ t) → firstIdx t (l ++ t :: s) = some l.length
  | [], s, _ => by simp [firstIdx]
  | c :: cs, s, h => by
    have ih := firstIdx_append t cs s (fun x hx => h x (List.mem_cons_of_mem c hx))
    simp only [List.cons_append, firstIdx]
    rw [if_neg (h c (List.mem_cons_self c cs))]
    show Option.map (· + 1) (firstIdx t (cs ++ t :: s)) = some (c :: cs).length
    rw [ih]
    rfl

theorem mem_of_containsSeq (pat : List Char) (c : Char) (hc : c ∈ pat) :
    ∀ l : List Char, containsSeq pat l = true → c ∈ l
  | [], h => by
    simp only [containsSeq, List.isEmpty_iff] at h
    subst h
    cases hc
  | b :: bs, h => by
    simp only [containsSeq, Bool.or_eq_true] at h
    rcases h with h | h
    · exact (List.isPrefixOf_iff_prefix.mp h).subset hc
    · exact List.mem_cons_of_mem b (mem_of_containsSeq pat c hc bs h)

theorem containsSeq_header_false (l : List Char) (h : ∀ c ∈ l, c ≠ ' ') :
    containsSeq headerMark l = false := by
  cases hb : containsSeq headerMark l with
  | false => rfl
  | true => exact absurd rfl (h ' ' (mem_of_containsSeq headerMark ' ' (by decide) l hb))

theorem tokenChar_facts (c : Char) (h : tokenChar c = true) :
    c ≠ ' ' ∧ c ≠ '\t' ∧ c ≠ '\n' ∧ c ≠ nulChar ∧ wsChar c = false := by
  simp only [tokenChar, Bool.not_eq_eq_eq_not, Bool.not_true, Bool.or_eq_false_iff,
    beq_eq_false_iff_ne, ne_eq] at h
  obtain ⟨⟨⟨h1, h2⟩, h3⟩, h4⟩ := h
  exact ⟨h1, h2, h3, h4, by simp [wsChar, h1, h2]⟩

theorem parseLine_skip_of_header (sc st : Nat) (p : List Char)
    (hh : containsSeq headerMark p = true) : parseLine sc st p = .skip := by
  unfold parseLine
  rw [hh]
  rfl

theorem parseLine_stop_of_bad (sc st : Nat) (l : List Char) (h : BadLine l) :
    parseLine sc st l = .stop := by
  obtain ⟨-, hchars⟩ := h
  unfold parseLine
  rw [containsSeq_header_false l (fun c hc => (hchars c hc).1),
    firstIdx_none_of_all ' ' l (fun c hc => (hchars c hc).1),
    firstIdx_none_of_all '\t' l (fun c hc => (hchars c hc).2.1)]
  rfl

theorem parseFields_wf (sc st : Nat) (e : List Char × Char × List Char)
    (h : WfEntry sc st e) :
    parseFields sc st e.1.length (e.1 ++ e.2.1 :: e.2.2) = .ok e.1 e.2.2 := by
  obtain ⟨hs_ne, hs_chars, hs_cap, -, ht_ne, ht_chars, ht_cap, -⟩ := h
  have hlen0 : ¬ e.1.length = 0 := fun hl => hs_ne (List.eq_nil_of_length_eq_zero hl)
  have h1 : (e.1 ++ e.2.1 :: e.2.2).take e.1.length = e.1 := List.take_left e.1 _
  have h3 : (e.1 ++ e.2.1 :: e.2.2).drop (e.1.length + 1) = e.2.2 := by
    rw [show e.1 ++ e.2.1 :: e.2.2 = (e.1 ++ [e.2.1]) ++ e.2.2 by simp,
      show e.1.length + 1 = (e.1 ++ [e.2.1]).length by simp]
    exact List.drop_left (e.1 ++ [e.2.1]) e.2.2
  have h4 : e.2.2.dropWhile wsChar = e.2.2 := by
    cases hst : e.2.2 with
    | nil => rfl
    | cons c cs =>
      refine List.dropWhile_cons_of_neg ?_
      have hcmem : c ∈ e.2.2 := by rw [hst]; exact List.mem_cons_self c cs
      simp [(tokenChar_facts c (ht_chars c hcmem)).2.2.2.2]
  unfold parseFields
  rw [if_neg hlen0, h1, List.take_of_length_le hs_cap, h3, h4,
    if_neg (fun hl => ht_ne (List.eq_nil_of_length_eq_zero hl)),
    List.take_of_length_le ht_cap]

theorem parseLine_wf (sc st : Nat) (e : List Char × Char × List Char)
    (h : WfEntry sc st e) : parseLine sc st (mkLine e) = .ok e.1 e.2.2 := by
  have hcopy := h
  obtain ⟨hs_ne, hs_chars, hs_cap, hsep, ht_ne, ht_chars, ht_cap, hhead⟩ := hcopy
  have hserial_sp : ∀ c ∈ e.1, c ≠ ' ' := fun c hc => (tokenChar_facts c (hs_chars c hc)).1
  have hline : mkLine e = e.1 ++ e.2.1 :: e.2.2 := rfl
  unfold parseLine
  rw [hline, hhead]
  rcases hsep with hsp | htb
  · have hfi : firstIdx ' ' (e.1 ++ e.2.1 :: e.2.2) = some e.1.length := by
      rw [hsp]
      exact firstIdx_append ' ' e.1 e.2.2 hserial_sp
    rw [hfi]
    exact parseFields_wf sc st e h
  · have hnospace : ∀ c ∈ e.1 ++ e.2.1 :: e.2.2, c ≠ ' ' := by
      intro c hc
      rcases List.mem_append.mp hc with hc | hc
      · exact hserial_sp c hc
      · rcases List.mem_cons.mp hc with hc | hc
        · rw [hc, htb]; decide
        · exact (tokenChar_facts c (ht_chars c hc)).1
    have hfi1 : firstIdx ' ' (e.1 ++ e.2.1 :: e.2.2) = none :=
      firstIdx_none_of_all ' ' _ hnospace
    have hfi2 : firstIdx '\t' (e.1 ++ e.2.1 :: e.2.2) = some e.1.length := by
      rw [htb]
      exact firstIdx_append '\t' e.1 e.2.2
        (fun c hc => (tokenChar_facts c (hs_chars c hc)).2.1)
    rw [hfi1, hfi2]
    exact parseFields_wf sc st e h

theorem reloadParse_cons (sc st : Nat) (p : List Char) (rest : List (List Char))
    (dl : List (Option AdbDevice)) (i : Nat) :
    reloadParse sc st (p :: rest) dl i =
      match parseLine sc st p with
      | .stop => dl
      | .skip => reloadParse sc st rest dl i
      | .ok s t =>
        let dl' := dl.set i (some { serial := s, state := t, model := [] })
        if i + 1 = dl.length then dl' else reloadParse sc st rest dl' (i + 1) := rfl

theorem reloadParse_skip (sc st : Nat) (p : List Char) (rest : List (List Char))
    (dl : List (Option AdbDevice)) (i : Nat) (h : parseLine sc st p = .skip) :
    reloadParse sc st (p :: rest) dl i = reloadParse sc st rest dl i := by
  rw [reloadParse_cons, h]

theorem reloadParse_stop (sc st : Nat) (p : List Char) (rest : List (List Char))
    (dl : List (Option AdbDevice)) (i : Nat) (h : parseLine sc st p = .stop) :
    reloadParse sc st (p :: rest) dl i = dl := by
  rw [reloadParse_cons, h]

theorem writeSlots_of_length_le :
    ∀ (devs : List AdbDevice) (dl : List (Option AdbDevice)) (i : Nat),
      dl.length ≤ i → writeSlots dl i devs = dl
  | [], _, _, _ => rfl
  | d :: ds, dl, i, h => by
    show writeSlots (dl.set i (some d)) (i + 1) ds = dl
    rw [List.set_eq_of_length_le h]
    exact writeSlots_of_length_le ds dl (i + 1) (le_trans h (Nat.le_succ i))

theorem set_append_len {α : Type} :
    ∀ (pre : List α) (q : α) (qs : List α) (v : α),
      (pre ++ q :: qs).set pre.length v = pre ++ v :: qs
  | [], _, _, _ => rfl
  | p :: ps, q, qs, v => by
    show p :: (ps ++ q :: qs).set ps.length v = p :: (ps ++ v :: qs)
    rw [set_append_len ps q qs v]

theorem writeSlots_append :
    ∀ (devs : List AdbDevice) (pre post : List (Option AdbDevice)),
      writeSlots (pre ++ post) pre.length devs = pre ++ overwrite post devs
  | [], pre, post => by cases post <;> rfl
  | d :: ds, pre, [] => by
    show writeSlots ((pre ++ []).set pre.length (some d)) (pre.length + 1) ds =
      pre ++ overwrite [] (d :: ds)
    rw [List.append_nil, List.set_eq_of_length_le (le_refl _),
      writeSlots_of_length_le ds pre (pre.length + 1) (Nat.le_succ _)]
    simp [overwrite]
  | d :: ds, pre, q :: qs => by
    show writeSlots ((pre ++ q :: qs).set pre.length (some d)) (pre.length + 1) ds =
      pre ++ overwrite (q :: qs) (d :: ds)
    rw [set_append_len pre q qs (some d),
      show pre ++ some d :: qs = (pre ++ [some d]) ++ qs by simp,
      show pre.length + 1 = (pre ++ [some d]).length by simp,
      writeSlots_append ds (pre ++ [some d]) qs]
    simp [overwrite]

theorem overwrite_replicate :
    ∀ (devs : List AdbDevice) (L : Nat), devs.length ≤ L →
      overwrite (List.replicate L none) devs =
        devs.map some ++ List.replicate (L - devs.length) none
  | [], L, _ => by simp [overwrite]
  | d :: ds, 0, h => absurd h (by simp)
  | d :: ds, L + 1, h => by
    rw [List.replicate_succ]
    show some d :: overwrite (List.replicate L none) ds = _
    rw [overwrite_replicate ds L (by simpa using h)]
    simp [Nat.succ_sub_succ]

theorem reloadParse_entries (sc st : Nat) :
    ∀ (entries : List (List Char × Char × List Char)) (tail : List (List Char))
      (dl : List (Option AdbDevice)) (i : Nat),
      (∀ e ∈ entries, WfEntry sc st e) →
      i + entries.length ≤ dl.length →
      (∀ (dl' : List (Option AdbDevice)) (j : Nat), reloadParse sc st tail dl' j = dl') →
      reloadParse sc st (entries.map mkLine ++ tail) dl i =
        writeSlots dl i (entries.map entryDev)
  | [], tail, dl, i, _, _, htail => by
    simp only [List.map_nil, List.nil_append]
    exact htail dl i
  | e :: es, tail, dl, i, hwf, hlen, htail => by
    have hpl := parseLine_wf sc st e (hwf e (List.mem_cons_self e es))
    simp only [List.map_cons, List.cons_append]
    rw [reloadParse_cons, hpl]
    simp only [List.length_cons] at hlen
    show (let dl' := dl.set i (some { serial := e.1, state := e.2.2, model := [] });
      if i + 1 = dl.length then dl' else
        reloadParse sc st (es.map mkLine ++ tail) dl' (i + 1)) =
      writeSlots (dl.set i (some (entryDev e))) (i + 1) (es.map entryDev)
    by_cases hi : i + 1 = dl.length
    · rw [if_pos hi]
      have hes : es = [] := by
        apply List.eq_nil_of_length_eq_zero
        omega
      subst hes
      rfl
    · rw [if_neg hi]
      exact reloadParse_entries sc st es tail (dl.set i (some (entryDev e))) (i + 1)
        (fun x hx => hwf x (List.mem_cons_of_mem e hx))
        (by rw [List.length_set]; omega) htail

theorem Reload_parse_eq (sc st L : Nat) (lines : List (List Char))
    (hlines : ∀ l ∈ lines, l ≠ [] ∧ '\n' ∉ l ∧ nulChar ∉ l) :
    AdbMgr.Reload sc st true (some (joinLines lines)) (AdbMgr.new L) =
      (true, { deviceList := reloadParse sc st lines (List.replicate L none) 0,
               iter := 0 }) := by
  have hbuf : (joinLines lines).takeWhile (fun c => decide (c ≠ nulChar)) =
      joinLines lines := by
    apply List.takeWhile_eq_self_iff.mpr
    intro c hc
    simp only [decide_eq_true_eq]
    rcases mem_joinLines lines c hc with ⟨l, hl, hcl⟩ | hnl
    · exact fun he => (hlines l hl).2.2 (he ▸ hcl)
    · rw [hnl]; decide
  show (true, { AdbMgr.new L with deviceList := reloadParse sc st (tokenize ((joinLines lines).takeWhile (fun c => decide (c ≠ nulChar)))) (AdbMgr.new L).deviceList 0 }) = _
  rw [hbuf, tokenize_joinLines lines (fun l hl => ⟨(hlines l hl).1, (hlines l hl).2.1⟩)]
  rfl

theorem mkLine_props (sc st : Nat) (e : List Char × Char × List Char)
    (h : WfEntry sc st e) :
    mkLine e ≠ [] ∧ '\n' ∉ mkLine e ∧ nulChar ∉ mkLine e := by
  obtain ⟨hs_ne, hs_chars, -, hsep, -, ht_chars, -, -⟩ := h
  refine ⟨by simp [mkLine], ?_, ?_⟩
  · intro hmem
    have hmem' : '\n' ∈ e.1 ++ e.2.1 :: e.2.2 := hmem
    rcases List.mem_append.mp hmem' with hm | hm
    · exact (tokenChar_facts _ (hs_chars _ hm)).2.2.1 rfl
    · rcases List.mem_cons.mp hm with hm | hm
      · rcases hsep with hs | hs <;> rw [hs] at hm <;> exact absurd hm (by decide)
      · exact (tokenChar_facts _ (ht_chars _ hm)).2.2.1 rfl
  · intro hmem
    have hmem' : nulChar ∈ e.1 ++ e.2.1 :: e.2.2 := hmem
    rcases List.mem_append.mp hmem' with hm | hm
    · exact (tokenChar_facts _ (hs_chars _ hm)).2.2.2.1 rfl
    · rcases List.mem_cons.mp hm with hm | hm
      · rcases hsep with hs | hs <;> rw [hs] at hm <;> exact absurd hm (by decide)
      · exact (tokenChar_facts _ (ht_chars _ hm)).2.2.2.1 rfl

/-- C1: for well-formed "devices" output — a header line containing the
"List of" marker followed by N ≤ DEVICES_LIMIT lines of
serial-whitespace-state with nonempty in-capacity tokens — Reload on a
fresh registry with both backend commands succeeding returns true and
populates exactly the first N slots, slot j holding the serial and state
of line j and an empty model. -/
theorem C1_reload_roundtrip (L sc st : Nat) (header : List Char)
    (entries : List (List Char × Char × List Char))
    (hh : WfHeader header)
    (hwf : ∀ e ∈ entries, WfEntry sc st e)
    (hN : entries.length ≤ L) :
    AdbMgr.Reload sc st true (some (joinLines (header :: entries.map mkLine)))
        (AdbMgr.new L) =
      (true, { deviceList := entries.map (fun e => some (entryDev e)) ++
        List.replicate (L - entries.length) none, iter := 0 }) := by
  obtain ⟨hh1, hh2, hh3⟩ := hh
  have hhne : header ≠ [] := by
    intro h
    rw [h] at hh1
    exact absurd hh1 (by decide)
  have hprops : ∀ l ∈ header :: entries.map mkLine,
      l ≠ [] ∧ '\n' ∉ l ∧ nulChar ∉ l := by
    intro l hl
    rcases List.mem_cons.mp hl with hl | hl
    · subst hl
      exact ⟨hhne, hh2, hh3⟩
    · rcases List.mem_map.mp hl with ⟨e, he, hrfl⟩
      subst hrfl
      exact mkLine_props sc st e (hwf e he)
  rw [Reload_parse_eq sc st L _ hprops,
    reloadParse_skip sc st header _ _ _ (parseLine_skip_of_header sc st header hh1),
    show entries.map mkLine = entries.map mkLine ++ [] by simp,
    reloadParse_entries sc st entries [] (List.replicate L none) 0 hwf
      (by simpa using hN) (fun dl' j => rfl)]
  have hws := writeSlots_append (entries.map entryDev) [] (List.replicate L none)
  simp only [List.nil_append, List.length_nil] at hws
  rw [hws, overwrite_replicate (entries.map entryDev) L (by simpa using hN)]
  simp [List.map_map, Function.comp]

theorem C1_witness :
    AdbMgr.Reload 9 8 true (some (joinLines ("List of devices attached".toList ::
      ([("abc".toList, ' ', "device".toList),
        ("xyz".toList, '\t', "offline".toList)]).map mkLine))) (AdbMgr.new 3) =
    (true, { deviceList :=
      ([("abc".toList, ' ', "device".toList),
        ("xyz".toList, '\t', "offline".toList)]).map (fun e => some (entryDev e)) ++
      List.replicate (3 - 2) none, iter := 0 }) :=
  C1_reload_roundtrip 3 9 8 "List of devices attached".toList
    [("abc".toList, ' ', "device".toList), ("xyz".toList, '\t', "offline".toList)]
    (by decide) (by decide) (by decide)

/-- C5: when device line k is the first line with neither a space nor a tab
separator, Reload (with both backend commands succeeding) returns true,
writes exactly the k-1 preceding well-formed device lines into slots, and
processes no line after line k. -/
theorem C5_malformed_stop (L sc st : Nat) (header bad : List Char)
    (goods : List (List Char × Char × List Char)) (rest : List (List Char))
    (hh : WfHeader header)
    (hwf : ∀ e ∈ goods, WfEntry sc st e)
    (hk : goods.length ≤ L)
    (hbad : BadLine bad)
    (hrest : ∀ l ∈ rest, l ≠ [] ∧ '\n' ∉ l ∧ nulChar ∉ l) :
    AdbMgr.Reload sc st true
        (some (joinLines (header :: (goods.map mkLine ++ bad :: rest))))
        (AdbMgr.new L) =
      (true, { deviceList := goods.map (fun e => some (entryDev e)) ++
        List.replicate (L - goods.length) none, iter := 0 }) := by
  obtain ⟨hh1, hh2, hh3⟩ := hh
  obtain ⟨hbne, hbchars⟩ := hbad
  have hhne : header ≠ [] := by
    intro h
    rw [h] at hh1
    exact absurd hh1 (by decide)
  have hprops : ∀ l ∈ header :: (goods.map mkLine ++ bad :: rest),
      l ≠ [] ∧ '\n' ∉ l ∧ nulChar ∉ l := by
    intro l hl
    rcases List.mem_cons.mp hl with hl | hl
    · subst hl
      exact ⟨hhne, hh2, hh3⟩
    · rcases List.mem_append.mp hl with hl | hl
      · rcases List.mem_map.mp hl with ⟨e, he, hrfl⟩
        subst hrfl
        exact mkLine_props sc st e (hwf e he)
      · rcases List.mem_cons.mp hl with hl | hl
        · subst hl
          exact ⟨hbne, fun hm => (hbchars _ hm).2.2.1 rfl,
            fun hm => (hbchars _ hm).2.2.2 rfl⟩
        · exact hrest l hl
  rw [Reload_parse_eq sc st L _ hprops,
    reloadParse_skip sc st header _ _ _ (parseLine_skip_of_header sc st header hh1),
    reloadParse_entries sc st goods (bad :: rest) (List.replicate L none) 0 hwf
      (by simpa using hk)
      (fun dl' j => reloadParse_stop sc st bad rest dl' j
        (parseLine_stop_of_bad sc st bad ⟨hbne, hbchars⟩))]
  have hws := writeSlots_append (goods.map entryDev) [] (List.replicate L none)
  simp only [List.nil_append, List.length_nil] at hws
  rw [hws, overwrite_replicate (goods.map entryDev) L (by simpa using hk)]
  simp [List.map_map, Function.comp]

theorem C5_witness :
    AdbMgr.Reload 9 8 true (some (joinLines ("List of devices attached".toList ::
      (([("abc".toList, ' ', "device".toList)]).map mkLine ++
        "nosep".toList :: ["x y".toList])))) (AdbMgr.new 3) =
    (true, { deviceList :=
      ([("abc".toList, ' ', "device".toList)]).map (fun e => some (entryDev e)) ++
      List.replicate (3 - 1) none, iter := 0 }) :=
  C5_malformed_stop 3 9 8 "List of devices attached".toList "nosep".toList
    [("abc".toList, ' ', "device".toList)] ["x y".toList]
    (by decide) (by decide) (by decide) (by decide) (by decide)

/-- C6: if the "reconnect offline" command or the "devices" command fails,
Reload returns false and leaves every device slot exactly as it was. -/
theorem C6_failure_unchanged (serialCap stateCap : Nat) (reconnectOk : Bool)
    (devicesRes : Option (List Char)) (m : AdbMgr)
    (h : reconnectOk = false ∨ devicesRes = none) :
    AdbMgr.Reload serialCap stateCap reconnectOk devicesRes m = (false, m) := by
  rcases h with h | h
  · subst h
    simp [AdbMgr.Reload]
  · subst h
    cases reconnectOk <;> simp [AdbMgr.Reload]

theorem C6_witness :
    AdbMgr.Reload 9 8 true none (AdbMgr.new 3) = (false, AdbMgr.new 3) :=
  C6_failure_unchanged 9 8 true none (AdbMgr.new 3) (Or.inr rfl)

/-- C8 counterexample: the claim says a negative daemon count makes Reload
report the same result as a successful zero-device Reload, but the return
values differ: a negative count returns 0 while a zero-device success
returns 1. -/
theorem C8_counterexample :
    (USBMux.Reload (-1) { deviceCount := 3, iter := 0 }).1 ≠
      (USBMux.Reload 0 { deviceCount := 3, iter := 0 }).1 := by
  decide

/-- C8 amended: a negative daemon count makes Reload store a zero device
count and return 0, leaving the registry in exactly the state of a
zero-device success (so no subsequent NextDevice call can distinguish the
two), but a zero-device success itself returns 1, so the caller can
distinguish the two conditions by Reload's return value. -/
theorem C8_reload_amended (listRes : Int) (m : USBMux) (h : listRes < 0) :
    (USBMux.Reload listRes m).2.deviceCount = 0 ∧
    (USBMux.Reload listRes m).1 = 0 ∧
    (USBMux.Reload listRes m).2 = (USBMux.Reload 0 m).2 ∧
    (USBMux.Reload 0 m).1 = 1 := by
  simp [USBMux.Reload, h]

theorem C8_witness :
    (USBMux.Reload (-7) { deviceCount := 3, iter := 1 }).2.deviceCount = 0 ∧
    (USBMux.Reload (-7) { deviceCount := 3, iter := 1 }).1 = 0 ∧
    (USBMux.Reload (-7) { deviceCount := 3, iter := 1 }).2 =
      (USBMux.Reload 0 { deviceCount := 3, iter := 1 }).2 ∧
    (USBMux.Reload 0 { deviceCount := 3, iter := 1 }).1 = 1 :=
  C8_reload_amended (-7) { deviceCount := 3, iter := 1 } (by decide)

/-- C9: Connect with an index at or beyond the stored count returns the
invalid-handle sentinel without invoking the daemon; when the daemon is
invoked, a non-positive result yields the sentinel and a positive result is
returned unchanged. -/
theorem C9_connect_bounds (connectRes : Int → Int → Int) (m : USBMux) (device port : Int) :
    (m.deviceCount ≤ device →
      USBMux.Connect connectRes m device port = (INVALID_SOCKET, none)) ∧
    (device < m.deviceCount → connectRes device port ≤ 0 →
      USBMux.Connect connectRes m device port = (INVALID_SOCKET, some device)) ∧
    (device < m.deviceCount → 0 < connectRes device port →
      USBMux.Connect connectRes m device port = (connectRes device port, some device)) := by
  refine ⟨fun h => ?_, fun h hrc => ?_, fun h hrc => ?_⟩
  · simp [USBMux.Connect, not_lt.mpr h]
  · simp [USBMux.Connect, h, hrc]
  · simp [USBMux.Connect, h, not_le.mpr hrc, Int.not_le.mpr hrc]

theorem C9_witness :
    USBMux.Connect (fun _ _ => 7) { deviceCount := 2, iter := 0 } 5 4747 =
      (INVALID_SOCKET, none) ∧
    USBMux.Connect (fun _ _ => 0) { deviceCount := 2, iter := 0 } 1 4747 =
      (INVALID_SOCKET, some 1) ∧
    USBMux.Connect (fun _ _ => 7) { deviceCount := 2, iter := 0 } 1 4747 =
      (7, some 1) :=
  ⟨(C9_connect_bounds (fun _ _ => 7) { deviceCount := 2, iter := 0 } 5 4747).1 (by decide),
   (C9_connect_bounds (fun _ _ => 0) { deviceCount := 2, iter := 0 } 1 4747).2.1 (by decide)
     (by decide),
   (C9_connect_bounds (fun _ _ => 7) { deviceCount := 2, iter := 0 } 1 4747).2.2 (by decide)
     (by decide)⟩

/-- C10: Connect checks only the upper bound of the index: any negative
index passes the `device < deviceCount` test while the count is positive,
and the daemon connect call is made with that negative (out-of-bounds)
index into the device-info array instead of returning the sentinel
uninvoked. -/
theorem C10_negative_index (connectRes : Int → Int → Int) (m : USBMux) (device port : Int)
    (hneg : device < 0) (hpos : 0 < m.deviceCount) :
    (USBMux.Connect connectRes m device port).2 = some device := by
  have h : device < m.deviceCount := lt_of_lt_of_le hneg (le_of_lt hpos)
  by_cases hrc : connectRes device port ≤ 0 <;> simp [USBMux.Connect, h, hrc]

theorem C10_witness :
    (USBMux.Connect (fun _ _ => 7) { deviceCount := 1, iter := 0 } (-1) 4747).2 =
      some (-1) :=
  C10_negative_index (fun _ _ => 7) { deviceCount := 1, iter := 0 } (-1) 4747 (by decide)
    (by decide)

/-- C7 counterexample: the claim reads GetModel as filtering the whole
result text to the safe character subset; on the text "a\nb" such a filter
keeps "ab", but the code stops at the first unsafe character and stores
only "a". -/
theorem C7_counterexample :
    (GetModel 10 (some "a\nb".toList) { serial := [], state := [], model := [] }).model ≠
      specModelFilter 10 "a\nb".toList := by
  decide

/-- C7 amended: model resolution writes the longest prefix of the command's
result text consisting of safe characters (alphanumeric, space, hyphen,
underscore), truncated to the model capacity minus two; characters at and
after the first unsafe character — in particular trailing whitespace and
newlines — are discarded. -/
theorem C7_model_filter_amended (modelCap : Nat) (buf : List Char) (dev : AdbDevice) :
    (GetModel modelCap (some buf) dev).model <+: buf ∧
    (∀ c ∈ (GetModel modelCap (some buf) dev).model, modelCharOk c = true) ∧
    (GetModel modelCap (some buf) dev).model.length ≤ modelCap - 2 ∧
    (∀ pre, pre <+: buf → (∀ c ∈ pre, modelCharOk c = true) →
      pre.length ≤ modelCap - 2 → pre <+: (GetModel modelCap (some buf) dev).model) := by
  have hmodel : (GetModel modelCap (some buf) dev).model =
      (buf.takeWhile modelCharOk).take (modelCap - 2) := rfl
  refine ⟨?_, ?_, ?_, ?_⟩
  · rw [hmodel]
    calc (buf.takeWhile modelCharOk).take (modelCap - 2)
        <+: buf.takeWhile modelCharOk :=
          ⟨(buf.takeWhile modelCharOk).drop (modelCap - 2), List.take_append_drop _ _⟩
      _ <+: buf := ⟨buf.dropWhile modelCharOk, List.takeWhile_append_dropWhile _ _⟩
  · intro c hc
    rw [hmodel] at hc
    exact List.mem_takeWhile_imp (List.mem_of_mem_take hc)
  · rw [hmodel, List.length_take]
    exact min_le_left _ _
  · intro pre hpre hsafe hlen
    rw [hmodel]
    rcases safe_pre_takeWhile modelCharOk pre buf hpre hsafe with ⟨t, ht⟩
    rw [← ht]
    exact append_pre_take pre t (modelCap - 2) hlen

theorem C7_witness :
    "Pix".toList <+:
      (GetModel 20 (some "Pixel 5\n".toList) { serial := [], state := [], model := [] }).model :=
  (C7_model_filter_amended 20 "Pixel 5\n".toList
    { serial := [], state := [], model := [] }).2.2.2 "Pix".toList
    (by decide) (by decide) (by decide)

/-! Helper lemmas on indexed access and the NextDevice step. -/

theorem getD_set_eq_of_lt {α : Type} :
    ∀ (l : List α) (i : Nat) (v d : α), i < l.length → (l.set i v).getD i d = v
  | [], _, _, _, h => absurd h (by simp)
  | _ :: _, 0, _, _, _ => rfl
  | _ :: as, i + 1, v, d, h => by
    show (as.set i v).getD i d = v
    exact getD_set_eq_of_lt as i v d (by simpa using h)

theorem getD_set_ne {α : Type} :
    ∀ (l : List α) (i j : Nat) (v d : α), i ≠ j → (l.set i v).getD j d = l.getD j d
  | [], _, _, _, _, _ => rfl
  | _ :: _, 0, 0, _, _, h => absurd rfl h
  | _ :: _, 0, _ + 1, _, _, _ => rfl
  | _ :: _, _ + 1, 0, _, _, _ => rfl
  | _ :: as, i + 1, j + 1, v, d, h => by
    show (as.set i v).getD j d = as.getD j d
    exact getD_set_ne as i j v d (fun he => h (by rw [he]))

theorem set_getD_eq_self {α : Type} :
    ∀ (l : List α) (i : Nat) (d : α), i < l.length → l.set i (l.getD i d) = l
  | [], _, _, h => absurd h (by simp)
  | _ :: _, 0, _, _ => rfl
  | a :: as, i + 1, d, h => by
    show a :: as.set i (as.getD i d) = a :: as
    rw [set_getD_eq_self as i d (by simpa using h)]

theorem getD_some_lt :
    ∀ (l : List (Option AdbDevice)) (i : Nat) (dv : AdbDevice),
      l.getD i none = some dv → i < l.length
  | [], i, _, h => by simp [List.getD] at h
  | _ :: _, 0, _, _ => by simp
  | _ :: as, i + 1, dv, h => by
    have := getD_some_lt as i dv h
    simp only [List.length_cons]
    omega

theorem getD_append_len {α : Type} :
    ∀ (pre : List α) (x : α) (s : List α) (d : α),
      (pre ++ x :: s).getD pre.length d = x
  | [], _, _, _ => rfl
  | _ :: ps, x, s, d => getD_append_len ps x s d

theorem getD_map_some (pops : List AdbDevice) :
    ∀ (i : Nat), i < pops.length →
      (pops.map some).getD i none = some (pops.getD i defaultDev) := by
  induction pops with
  | nil => intro i h; exact absurd h (by simp)
  | cons p ps ih =>
    intro i h
    cases i with
    | zero => rfl
    | succ i => exact ih i (by simpa using h)

theorem getD_map_serial (pops : List AdbDevice) :
    ∀ (i : Nat), i < pops.length →
      (pops.map AdbDevice.serial).getD i [] = (pops.getD i defaultDev).serial := by
  induction pops with
  | nil => intro i h; exact absurd h (by simp)
  | cons p ps ih =>
    intro i h
    cases i with
    | zero => rfl
    | succ i => exact ih i (by simpa using h)

theorem set_getD_self (l : List (Option AdbDevice)) (i : Nat) (dv : AdbDevice)
    (h : l.getD i none = some dv) : l.set i (some dv) = l := by
  have hlt := getD_some_lt l i dv h
  have := set_getD_eq_self l i none hlt
  rw [h] at this
  exact this

theorem runNexts_succ (mc : Nat) (res : Option (List Char)) (n : Nat) (m : AdbMgr) :
    runNexts mc res (n + 1) m =
      ((runNexts mc res n (AdbMgr.NextDevice mc res m).1).1,
       (AdbMgr.NextDevice mc res m).2 ::
         (runNexts mc res n (AdbMgr.NextDevice mc res m).1).2) := rfl

theorem NextDevice_slot_none (mc : Nat) (res : Option (List Char)) (m : AdbMgr)
    (h : m.deviceList.getD (normIter m) none = none) :
    AdbMgr.NextDevice mc res m = ({ m with iter := normIter m }, none, none, none) := by
  simp only [AdbMgr.NextDevice]
  rw [h]

theorem NextDevice_offline (mc : Nat) (res : Option (List Char)) (m : AdbMgr)
    (dev : AdbDevice) (h : m.deviceList.getD (normIter m) none = some dev)
    (hoff : offlineTok.isPrefixOf dev.state = true) :
    AdbMgr.NextDevice mc res m =
      ({ m with iter := normIter m + 1 }, some dev, some 1, none) := by
  simp only [AdbMgr.NextDevice]
  rw [h]
  simp [hoff]

theorem NextDevice_fetch (mc : Nat) (res : Option (List Char)) (m : AdbMgr)
    (dev : AdbDevice) (h : m.deviceList.getD (normIter m) none = some dev)
    (hoff : offlineTok.isPrefixOf dev.state = false) (hmod : dev.model = []) :
    AdbMgr.NextDevice mc res m =
      ({ m with iter := normIter m + 1, deviceList := m.deviceList.set (normIter m) (some (GetModel mc res dev)) }, some (GetModel mc res dev), some 0, some (normIter m)) := by
  simp only [AdbMgr.NextDevice]
  rw [h]
  simp [hoff, hmod]

theorem NextDevice_cached (mc : Nat) (res : Option (List Char)) (m : AdbMgr)
    (dev : AdbDevice) (h : m.deviceList.getD (normIter m) none = some dev)
    (hoff : offlineTok.isPrefixOf dev.state = false) (hmod : dev.model ≠ []) :
    AdbMgr.NextDevice mc res m =
      ({ m with iter := normIter m + 1 }, some dev, some 0, none) := by
  simp only [AdbMgr.NextDevice]
  rw [h]
  simp [hoff, hmod]

theorem GetModel_serial (mc : Nat) (res : Option (List Char)) (dev : AdbDevice) :
    (GetModel mc res dev).serial = dev.serial := by
  cases res <;> rfl

theorem GetModel_state (mc : Nat) (res : Option (List Char)) (dev : AdbDevice) :
    (GetModel mc res dev).state = dev.state := by
  cases res <;> rfl

theorem NextDevice_some_shape (mc : Nat) (res : Option (List Char)) (m : AdbMgr)
    (dev : AdbDevice) (h : m.deviceList.getD (normIter m) none = some dev) :
    ∃ dev' r3 r4, AdbMgr.NextDevice mc res m =
      ({ m with iter := normIter m + 1, deviceList := m.deviceList.set (normIter m) (some dev') }, some dev', r3, r4) ∧
      dev'.serial = dev.serial ∧ dev'.state = dev.state := by
  by_cases hoff : offlineTok.isPrefixOf dev.state = true
  · refine ⟨dev, some 1, none, ?_, rfl, rfl⟩
    rw [NextDevice_offline mc res m dev h hoff, set_getD_self m.deviceList (normIter m) dev h]
  · by_cases hmod : dev.model = []
    · exact ⟨GetModel mc res dev, some 0, some (normIter m),
        NextDevice_fetch mc res m dev h (Bool.eq_false_iff.mpr hoff) hmod,
        GetModel_serial mc res dev, GetModel_state mc res dev⟩
    · refine ⟨dev, some 0, none, ?_, rfl, rfl⟩
      rw [NextDevice_cached mc res m dev h (Bool.eq_false_iff.mpr hoff) hmod,
        set_getD_self m.deviceList (normIter m) dev h]

theorem runNexts_visit (mc : Nat) (res : Option (List Char)) :
    ∀ (n : Nat) (pre rem : List AdbDevice) (r : Nat) (m : AdbMgr),
      m.deviceList = pre.map some ++ rem.map some ++ List.replicate r none →
      m.iter = pre.length →
      0 < r →
      resultsDev (runNexts mc res n m).2 =
        ((rem.map AdbDevice.serial).map some).take n ++
          List.replicate (n - rem.length) none
  | 0, _, _, _, _, _, _, _ => by simp [runNexts, resultsDev]
  | n + 1, pre, rem, r, m, h1, h2, hr => by
    have hlen : m.deviceList.length = pre.length + rem.length + r := by
      rw [h1]
      simp only [List.length_append, List.length_map, List.length_replicate]
    have hit : normIter m = pre.length := by
      rw [normIter, hlen, h2, if_neg (by omega)]
    cases rem with
    | nil =>
      cases r with
      | zero => omega
      | succ r' =>
        have hget : m.deviceList.getD (normIter m) none = none := by
          rw [hit, h1, List.replicate_succ]
          simp only [List.map_nil, List.append_nil]
          rw [show pre.length = (List.map some pre).length from
            (List.length_map pre some).symm]
          exact getD_append_len (pre.map some) none (List.replicate r' none) none
        rw [runNexts_succ, NextDevice_slot_none mc res m hget]
        dsimp only
        have ih := runNexts_visit mc res n pre [] (r' + 1)
          { m with iter := normIter m } h1 hit hr
        simp only [resultsDev, List.map_cons] at ih ⊢
        rw [ih]
        simp [List.replicate_succ]
    | cons x rem' =>
      have hget : m.deviceList.getD (normIter m) none = some x := by
        rw [hit, h1]
        have hg := getD_append_len (pre.map some) (some x)
          (rem'.map some ++ List.replicate r none) none
        simpa using hg
      rcases NextDevice_some_shape mc res m x hget with ⟨dev', r3, r4, hnd, hserial, hstate⟩
      rw [runNexts_succ, hnd]
      dsimp only
      have hdl' : m.deviceList.set (normIter m) (some dev') =
          (pre ++ [dev']).map some ++ rem'.map some ++ List.replicate r none := by
        rw [hit, h1]
        simp
      have ih := runNexts_visit mc res n (pre ++ [dev']) rem' r
        { m with iter := normIter m + 1, deviceList := m.deviceList.set (normIter m) (some dev') }
        hdl' (by show normIter m + 1 = _; rw [hit]; simp) hr
      simp only [resultsDev, List.map_cons] at ih ⊢
      rw [ih]
      simp [hserial, Nat.succ_sub_succ]

theorem runNexts_cycle (mc : Nat) (res : Option (List Char)) :
    ∀ (n : Nat) (pops : List AdbDevice) (j : Nat) (m : AdbMgr),
      m.deviceList = pops.map some →
      m.iter = j → j ≤ pops.length → 0 < pops.length →
      resultsDev (runNexts mc res n m).2 =
        (List.range n).map (fun t =>
          some ((pops.map AdbDevice.serial).getD ((j % pops.length + t) % pops.length) []))
  | 0, _, _, _, _, _, _, _ => by simp [runNexts, resultsDev]
  | n + 1, pops, j, m, h1, h2, hjk, hk => by
    have hlen : m.deviceList.length = pops.length := by
      rw [h1, List.length_map]
    have hj' : j % pops.length < pops.length := Nat.mod_lt _ hk
    have hit : normIter m = j % pops.length := by
      rw [normIter, hlen, h2]
      rcases Nat.lt_or_ge j pops.length with hlt | hge
      · rw [if_neg (by omega), Nat.mod_eq_of_lt hlt]
      · have hje : j = pops.length := le_antisymm hjk hge
        rw [if_pos (by omega), hje, Nat.mod_self]
    have hget : m.deviceList.getD (normIter m) none =
        some (pops.getD (j % pops.length) defaultDev) := by
      rw [hit, h1]
      exact getD_map_some pops (j % pops.length) hj'
    rcases NextDevice_some_shape mc res m _ hget with ⟨dev', r3, r4, hnd, hserial, hstate⟩
    rw [runNexts_succ, hnd]
    dsimp only
    have hdl' : m.deviceList.set (normIter m) (some dev') =
        (pops.set (j % pops.length) dev').map some := by
      rw [hit, h1, List.map_set]
    have hserials : (pops.set (j % pops.length) dev').map AdbDevice.serial =
        pops.map AdbDevice.serial := by
      rw [List.map_set, hserial, ← getD_map_serial pops (j % pops.length) hj',
        set_getD_eq_self (pops.map AdbDevice.serial) (j % pops.length) []
          (by rw [List.length_map]; exact hj')]
    have ih := runNexts_cycle mc res n (pops.set (j % pops.length) dev')
      (j % pops.length + 1)
      { m with iter := normIter m + 1, deviceList := m.deviceList.set (normIter m) (some dev') }
      hdl' (by show normIter m + 1 = _; rw [hit]) (by rw [List.length_set]; omega)
      (by rw [List.length_set]; exact hk)
    simp only [resultsDev, List.map_cons] at ih ⊢
    rw [ih, hserials, List.length_set]
    rw [List.range_succ_eq_map, List.map_cons, List.map_map]
    congr 1
    · have hidx : (j % pops.length + 0) % pops.length = j % pops.length := by
        rw [Nat.add_zero, Nat.mod_eq_of_lt hj']
      simp [hserial, hidx, getD_map_serial pops (j % pops.length) hj']
      rw [List.getElem?_eq_getElem hj']
      rfl
    · apply List.map_congr_left
      intro t ht
      have harith : ((j % pops.length + 1) % pops.length + t) % pops.length =
          (j % pops.length + (t + 1)) % pops.length := by
        rw [Nat.mod_add_mod]
        congr 1
        omega
      simp [Function.comp, harith]
      rw [show j + 1 + t = j + (t + 1) by omega]

/-- C3 counterexample: with DEVICES_LIMIT = 2 and k = 1 populated slot,
calling NextDevice exactly DEVICES_LIMIT times does not yield the populated
device repeating: the second call hits the empty slot, returns null, and
the cursor stalls there, so the output is [device, null], not
[device, device]. -/
theorem C3_counterexample :
    resultsDev (runNexts 0 none 2 { deviceList := [some { serial := ['a'], state := "device".toList, model := ['m'] }, none], iter := 0 }).2 ≠
      [some ['a'], some ['a']] := by
  decide

/-- C3 amended: with k < DEVICES_LIMIT populated slots, any number of
NextDevice calls yields the k populated devices once, in slot order,
followed by null for every further call — the cursor does not advance on a
null return, so it stalls on the first unpopulated slot and the sequence
does not repeat.  When all DEVICES_LIMIT slots are populated the cursor
wraps to 0 on reaching the device limit and the sequence of the populated
devices repeats cyclically. -/
theorem C3_iterator_amended (mc : Nat) (res : Option (List Char))
    (pops : List AdbDevice) (r n : Nat) :
    (0 < r →
      resultsDev (runNexts mc res n { deviceList := pops.map some ++ List.replicate r none, iter := 0 }).2 =
        ((pops.map AdbDevice.serial).map some).take n ++
          List.replicate (n - pops.length) none) ∧
    (0 < pops.length →
      resultsDev (runNexts mc res n { deviceList := pops.map some, iter := 0 }).2 =
        (List.range n).map (fun t =>
          some ((pops.map AdbDevice.serial).getD (t % pops.length) []))) := by
  constructor
  · intro hr
    exact runNexts_visit mc res n [] pops r _ (by simp) rfl hr
  · intro hp
    have h := runNexts_cycle mc res n pops 0 { deviceList := pops.map some, iter := 0 }
      rfl rfl (Nat.zero_le _) hp
    rw [h]
    apply List.map_congr_left
    intro t ht
    rw [Nat.zero_mod, Nat.zero_add]

theorem C3_witness :
    (resultsDev (runNexts 0 none 3 { deviceList := [⟨['a'], "device".toList, ['m']⟩].map some ++ List.replicate 1 none, iter := 0 }).2 =
      (([⟨['a'], "device".toList, ['m']⟩].map AdbDevice.serial).map some).take 3 ++
        List.replicate (3 - ([⟨['a'], "device".toList, ['m']⟩] : List AdbDevice).length) none) ∧
    (resultsDev (runNexts 0 none 5 { deviceList := [⟨['a'], "device".toList, ['m']⟩, ⟨['b'], "device".toList, ['m']⟩].map some, iter := 0 }).2 =
      (List.range 5).map (fun t =>
        some (([⟨['a'], "device".toList, ['m']⟩, ⟨['b'], "device".toList, ['m']⟩].map AdbDevice.serial).getD (t % ([⟨['a'], "device".toList, ['m']⟩, ⟨['b'], "device".toList, ['m']⟩] : List AdbDevice).length) []))) :=
  ⟨(C3_iterator_amended 0 none [⟨['a'], "device".toList, ['m']⟩] 1 3).1 (by decide),
   (C3_iterator_amended 0 none [⟨['a'], "device".toList, ['m']⟩, ⟨['b'], "device".toList, ['m']⟩] 1 5).2 (by decide)⟩

theorem NextDevice_offline_flag (mc : Nat) (res : Option (List Char)) (m : AdbMgr)
    (d : AdbDevice) (hd : (AdbMgr.NextDevice mc res m).2.1 = some d)
    (hoff : offlineTok.isPrefixOf d.state = true) :
    (AdbMgr.NextDevice mc res m).2.2.1 = some 1 ∧
    (AdbMgr.NextDevice mc res m).2.2.2 = none := by
  cases hget : m.deviceList.getD (normIter m) none with
  | none =>
    rw [NextDevice_slot_none mc res m hget] at hd
    exact absurd hd (by simp)
  | some dev =>
    by_cases hoffdev : offlineTok.isPrefixOf dev.state = true
    · rw [NextDevice_offline mc res m dev hget hoffdev]
      exact ⟨rfl, rfl⟩
    · by_cases hmod : dev.model = []
      · rw [NextDevice_fetch mc res m dev hget (Bool.eq_false_iff.mpr hoffdev) hmod] at hd
        have hds : d.state = dev.state := by
          injection hd with h
          rw [← h, GetModel_state]
        rw [hds] at hoff
        exact absurd hoff hoffdev
      · rw [NextDevice_cached mc res m dev hget (Bool.eq_false_iff.mpr hoffdev) hmod] at hd
        have hds : d.state = dev.state := by
          injection hd with h
          rw [← h]
        rw [hds] at hoff
        exact absurd hoff hoffdev

/-- C4: whenever a NextDevice call yields a device whose state buffer
begins with the bytes "offline", that call stored 1 through is_offline and
did not invoke the model-resolution command — over any number of calls, so
an offline device is never queried for its model until a Reload changes
its state. -/
theorem C4_offline_no_fetch (mc : Nat) (res : Option (List Char)) :
    ∀ (n : Nat) (m : AdbMgr) (r : Option AdbDevice × Option Nat × Option Nat),
      r ∈ (runNexts mc res n m).2 →
      ∀ d : AdbDevice, r.1 = some d → offlineTok.isPrefixOf d.state = true →
        r.2.1 = some 1 ∧ r.2.2 = none
  | 0, m, r, hr => absurd hr (List.not_mem_nil r)
  | n + 1, m, r, hr => by
    rw [runNexts_succ] at hr
    intro d hd hoff
    rcases List.mem_cons.mp hr with hr | hr
    · subst hr
      exact NextDevice_offline_flag mc res m d hd hoff
    · exact C4_offline_no_fetch mc res n (AdbMgr.NextDevice mc res m).1 r hr d hd hoff

theorem C4_witness :
    ((some (⟨['x'], "offline".toList, []⟩ : AdbDevice), some 1, (none : Option Nat)) :
      Option AdbDevice × Option Nat × Option Nat).2.1 = some 1 ∧
    ((some (⟨['x'], "offline".toList, []⟩ : AdbDevice), some 1, (none : Option Nat)) :
      Option AdbDevice × Option Nat × Option Nat).2.2 = none :=
  C4_offline_no_fetch 0 none 1 { deviceList := [some ⟨['x'], "offline".toList, []⟩], iter := 0 }
    (some ⟨['x'], "offline".toList, []⟩, some 1, none) (by decide)
    ⟨['x'], "offline".toList, []⟩ rfl (by decide)

theorem NextDevice_not_invoked_dl (mc : Nat) (res : Option (List Char)) (m : AdbMgr)
    (h : (AdbMgr.NextDevice mc res m).2.2.2 = none) :
    (AdbMgr.NextDevice mc res m).1.deviceList = m.deviceList := by
  cases hget : m.deviceList.getD (normIter m) none with
  | none => rw [NextDevice_slot_none mc res m hget]
  | some dev =>
    by_cases hoff : offlineTok.isPrefixOf dev.state = true
    · rw [NextDevice_offline mc res m dev hget hoff]
    · by_cases hmod : dev.model = []
      · rw [NextDevice_fetch mc res m dev hget (Bool.eq_false_iff.mpr hoff) hmod] at h
        exact absurd h (by simp)
      · rw [NextDevice_cached mc res m dev hget (Bool.eq_false_iff.mpr hoff) hmod]

theorem NextDevice_invoked (mc : Nat) (res : Option (List Char)) (m : AdbMgr) (j : Nat)
    (h : (AdbMgr.NextDevice mc res m).2.2.2 = some j) :
    normIter m = j ∧ ∃ dev, m.deviceList.getD j none = some dev ∧ dev.model = [] ∧
      (AdbMgr.NextDevice mc res m).1.deviceList =
        m.deviceList.set j (some (GetModel mc res dev)) := by
  cases hget : m.deviceList.getD (normIter m) none with
  | none =>
    rw [NextDevice_slot_none mc res m hget] at h
    exact absurd h (by simp)
  | some dev =>
    by_cases hoff : offlineTok.isPrefixOf dev.state = true
    · rw [NextDevice_offline mc res m dev hget hoff] at h
      exact absurd h (by simp)
    · by_cases hmod : dev.model = []
      · rw [NextDevice_fetch mc res m dev hget (Bool.eq_false_iff.mpr hoff) hmod] at h ⊢
        have hj : normIter m = j := by
          injection h
        subst hj
        exact ⟨rfl, dev, hget, hmod, rfl⟩
      · rw [NextDevice_cached mc res m dev hget (Bool.eq_false_iff.mpr hoff) hmod] at h
        exact absurd h (by simp)

theorem runNexts_no_invoke (mc : Nat) (res : Option (List Char)) :
    ∀ (n : Nat) (m : AdbMgr) (j : Nat),
      (∀ dev, m.deviceList.getD j none = some dev → dev.model ≠ []) →
      ((runNexts mc res n m).2.filter (fun r => decide (r.2.2 = some j))).length = 0
  | 0, _, _, _ => rfl
  | n + 1, m, j, hP => by
    rw [runNexts_succ]
    simp only [List.filter_cons]
    by_cases hj : (AdbMgr.NextDevice mc res m).2.2.2 = some j
    · rcases NextDevice_invoked mc res m j hj with ⟨-, dev, hget, hmod, -⟩
      exact absurd hmod (hP dev hget)
    · rw [if_neg (by simpa using hj)]
      have hP' : ∀ dev, (AdbMgr.NextDevice mc res m).1.deviceList.getD j none = some dev →
          dev.model ≠ [] := by
        cases hstep : (AdbMgr.NextDevice mc res m).2.2.2 with
        | none =>
          rw [NextDevice_not_invoked_dl mc res m hstep]
          exact hP
        | some j' =>
          have hjj : j' ≠ j := fun he => hj (by rw [hstep, he])
          rcases NextDevice_invoked mc res m j' hstep with ⟨-, dev', -, -, hdl⟩
          rw [hdl]
          intro dev hget
          rw [getD_set_ne _ j' j _ _ hjj] at hget
          exact hP dev hget
      exact runNexts_no_invoke mc res n _ j hP'

theorem runNexts_invoke_once (mc : Nat) (out : List Char)
    (hgood : (out.takeWhile modelCharOk).take (mc - 2) ≠ []) :
    ∀ (n : Nat) (m : AdbMgr) (j : Nat),
      ((runNexts mc (some out) n m).2.filter (fun r => decide (r.2.2 = some j))).length ≤ 1
  | 0, _, _ => by simp [runNexts]
  | n + 1, m, j => by
    rw [runNexts_succ]
    simp only [List.filter_cons]
    by_cases hj : (AdbMgr.NextDevice mc (some out) m).2.2.2 = some j
    · rw [if_pos (by simpa using hj)]
      simp only [List.length_cons]
      rcases NextDevice_invoked mc (some out) m j hj with ⟨-, dev, hget, -, hdl⟩
      have hjlt : j < m.deviceList.length := getD_some_lt m.deviceList j dev hget
      have hP : ∀ dv, (AdbMgr.NextDevice mc (some out) m).1.deviceList.getD j none = some dv →
          dv.model ≠ [] := by
        rw [hdl]
        intro dv hgd
        rw [getD_set_eq_of_lt _ j _ none hjlt] at hgd
        injection hgd with hh
        rw [← hh]
        simpa [GetModel] using hgood
      rw [runNexts_no_invoke mc (some out) n _ j hP]
    · rw [if_neg (by simpa using hj)]
      exact runNexts_invoke_once mc out hgood n _ j

theorem reloadParse_model_clear (sc st : Nat) :
    ∀ (lines : List (List Char)) (dl : List (Option AdbDevice)) (i j : Nat) (dv : AdbDevice),
      (reloadParse sc st lines dl i).getD j none = some dv →
      dl.getD j none = some dv ∨ dv.model = []
  | [], _, _, _, _, h => Or.inl h
  | p :: rest, dl, i, j, dv, h => by
    rw [reloadParse_cons] at h
    cases hpl : parseLine sc st p with
    | stop =>
      rw [hpl] at h
      exact Or.inl h
    | skip =>
      rw [hpl] at h
      exact reloadParse_model_clear sc st rest dl i j dv h
    | ok s t =>
      rw [hpl] at h
      dsimp only at h
      have hset : ∀ (hin : (dl.set i (some { serial := s, state := t, model := [] })).getD j none = some dv),
          dl.getD j none = some dv ∨ dv.model = [] := by
        intro hin
        by_cases hij : i = j
        · subst hij
          by_cases hlt : i < dl.length
          · rw [getD_set_eq_of_lt dl i _ none hlt] at hin
            injection hin with hh
            right
            rw [← hh]
          · rw [List.set_eq_of_length_le (by omega)] at hin
            exact Or.inl hin
        · rw [getD_set_ne dl i j _ none hij] at hin
          exact Or.inl hin
      by_cases hi : i + 1 = dl.length
      · rw [if_pos hi] at h
        exact hset h
      · rw [if_neg hi] at h
        rcases reloadParse_model_clear sc st rest _ (i + 1) j dv h with h' | h'
        · exact hset h'
        · exact Or.inr h'

/-- C2 counterexample: the claim says the model-resolution command is
invoked at most once per device between Reloads regardless of the
invocation's outcome.  With a full two-slot table, both devices online with
empty models, and a failing model command, three NextDevice calls invoke
the command for slot 0 twice: the failure leaves the model empty, so the
wrap-around revisit queries it again. -/
theorem C2_counterexample :
    ((runNexts 5 none 3 { deviceList := [some { serial := ['a'], state := "device".toList, model := [] }, some { serial := ['b'], state := "device".toList, model := [] }], iter := 0 }).2.filter (fun r => decide (r.2.2 = some 0))).length = 2 := by
  decide

/-- C2 amended: (1) when every invocation of the model command succeeds
with text whose safe-prefix filtrate is nonempty, the command is invoked
at most once per slot across any number of NextDevice calls with no Reload
between them; (2) every slot that a successful Reload rewrites holds an
empty model afterwards; (3) a NextDevice call that visits an online device
with an empty model invokes the model command for that slot — so after a
Reload the next online visit re-triggers resolution.  (A failed or
empty-result invocation leaves the model empty and the device may be
re-queried, which is what refutes the unconditional claim.) -/
theorem C2_model_fetch_amended :
    (∀ (mc : Nat) (out : List Char) (n : Nat) (m : AdbMgr) (j : Nat),
      (out.takeWhile modelCharOk).take (mc - 2) ≠ [] →
      ((runNexts mc (some out) n m).2.filter (fun r => decide (r.2.2 = some j))).length ≤ 1) ∧
    (∀ (sc st : Nat) (buf : List Char) (m : AdbMgr) (j : Nat) (dv : AdbDevice),
      (AdbMgr.Reload sc st true (some buf) m).2.deviceList.getD j none = some dv →
      m.deviceList.getD j none ≠ some dv → dv.model = []) ∧
    (∀ (mc : Nat) (res : Option (List Char)) (m : AdbMgr) (j : Nat) (dev : AdbDevice),
      normIter m = j → m.deviceList.getD j none = some dev →
      offlineTok.isPrefixOf dev.state = false → dev.model = [] →
      (AdbMgr.NextDevice mc res m).2.2.2 = some j) := by
  refine ⟨?_, ?_, ?_⟩
  · intro mc out n m j hgood
    exact runNexts_invoke_once mc out hgood n m j
  · intro sc st buf m j dv hafter hbefore
    have hre : (AdbMgr.Reload sc st true (some buf) m).2.deviceList =
        reloadParse sc st (tokenize (buf.takeWhile (fun c => decide (c ≠ nulChar)))) m.deviceList 0 := rfl
    rw [hre] at hafter
    rcases reloadParse_model_clear sc st _ m.deviceList 0 j dv hafter with h | h
    · exact absurd h hbefore
    · exact h
  · intro mc res m j dev hnorm hget hoff hmod
    rw [← hnorm] at hget ⊢
    rw [NextDevice_fetch mc res m dev hget hoff hmod]

theorem C2_witness :
    (((runNexts 10 (some "Pixel".toList) 3 { deviceList := [some { serial := ['a'], state := "device".toList, model := [] }, some { serial := ['b'], state := "device".toList, model := [] }], iter := 0 }).2.filter (fun r => decide (r.2.2 = some 0))).length ≤ 1) ∧
    (({ serial := "abc".toList, state := "device".toList, model := [] } : AdbDevice).model = []) ∧
    ((AdbMgr.NextDevice 10 none { deviceList := [some { serial := ['a'], state := "device".toList, model := [] }], iter := 0 }).2.2.2 = some 0) :=
  ⟨C2_model_fetch_amended.1 10 "Pixel".toList 3
      { deviceList := [some { serial := ['a'], state := "device".toList, model := [] }, some { serial := ['b'], state := "device".toList, model := [] }], iter := 0 } 0 (by decide),
   C2_model_fetch_amended.2.1 9 8 (joinLines ["abc device".toList]) (AdbMgr.new 1) 0
      { serial := "abc".toList, state := "device".toList, model := [] }
      (by rw [Reload_parse_eq 9 8 1 ["abc device".toList] (by decide)]; decide) (by decide),
   C2_model_fetch_amended.2.2 10 none
      { deviceList := [some { serial := ['a'], state := "device".toList, model := [] }], iter := 0 } 0
      { serial := ['a'], state := "device".toList, model := [] } (by decide) (by decide) (by decide) (by decide)⟩

end DroidCam
